import Mathlib

/-!
Verification of the run-tracking and log-streaming subsystem of
`PythonAspireSample/agent_mcp/main.py`: the `RunState` data model, the
`format_log_content` / `create_log_event` / `record_log` emit path, the
`get_run_logs` query (fast path and long-poll wait path) and the
`stop_run` endpoint, shallowly embedded as pure Lean functions.

Text (Python `str`) is modelled as `List Char` (one element per code
point), so Python's single-character `replace` and `[:200]` slicing are
exact.  Wall-clock timestamps (`datetime.now(...)`) are parameters of the
embedding.  HTTP errors are the `Except` error channel carrying the status
code.
-/

namespace AgentMcp

/-- The status literal of `RunState.status` / `RunInfo.status`:
`Literal["running", "done", "timeout", "stopped", "error"]`. -/
inductive RunStatus where
  | running
  | done
  | timeout
  | stopped
  | error
deriving DecidableEq, Repr

/-- One element of a list-shaped `content` value, as consumed by
`format_log_content`: a dict part carries the `str()` rendering of its
`"text"` entry when the key is present (`p.get("text", "")` yields `""`
otherwise); any non-dict part is rendered by `str(p)`. -/
inductive LogPart where
  | dictPart (text : Option (List Char))
  | strPart (s : List Char)
deriving DecidableEq

/-- The `content` argument of `record_log` / `format_log_content`: either a
list of parts, or any other value represented by its `str()` rendering. -/
inductive LogContent where
  | ofParts (ps : List LogPart)
  | ofString (s : List Char)
deriving DecidableEq

/-- Renders one part: `str(p.get("text", "")) if isinstance(p, dict) else str(p)`. -/
def strOfPart : LogPart → List Char
  | .dictPart t => t.getD []
  | .strPart s => s

/-- Python `.replace("\n", " ")`: replacing a single-character pattern by a
single-character replacement is a character-wise map. -/
def collapseNewlines (s : List Char) : List Char :=
  s.map fun c => if c = '\n' then ' ' else c

/-- The function `format_log_content` (main.py): list content is first rendered part by
part and joined with `" "`; then every newline is replaced by a space and
the result is truncated to 200 characters (`[:200]`). -/
def format_log_content : LogContent → List Char
  | .ofParts ps => (collapseNewlines (List.intercalate [' '] (ps.map strOfPart))).take 200
  | .ofString s => (collapseNewlines s).take 200

/-- The `LogEvent` pydantic model: `ts`, `node`, `text`. -/
structure LogEvent where
  ts : String
  node : String
  text : List Char
deriving DecidableEq, Repr

/-- The function `create_log_event(node, text)`; the wall-clock timestamp
`datetime.now(timezone.utc).isoformat(timespec="seconds")` is a parameter
of the embedding. -/
def create_log_event (ts node : String) (text : List Char) : LogEvent :=
  { ts := ts, node := node, text := text }

/-- The `asyncio.Task` handle stored in `RunState.task`; `cancel()` only
requests cancellation of the task. -/
structure TaskHandle where
  cancelRequested : Bool
deriving DecidableEq, Repr

/-- The `RunState` dataclass.  `queue` is the run's
`asyncio.Queue[LogEvent]` as a FIFO list whose head is the next item
`get()` returns. -/
structure RunState where
  session_id : String
  agent_id : String
  status : RunStatus
  start_ts : String
  end_ts : Option String
  log : List LogEvent
  queue : List LogEvent
  task : Option TaskHandle
deriving DecidableEq, Repr

/-- Constructing a `RunState` with the dataclass defaults:
`status="running"`, `end_ts=None`, empty `log`, empty `queue`,
`task=None`. -/
def mkRunState (session_id agent_id start_ts : String) : RunState :=
  { session_id := session_id, agent_id := agent_id, status := .running,
    start_ts := start_ts, end_ts := none, log := [], queue := [],
    task := none }

/-- The emit path `record_log(rs, node, content)`: format the content, stamp the event,
append it to `rs.log` and put it on `rs.queue`. -/
def record_log (rs : RunState) (ts node : String) (content : LogContent) :
    RunState :=
  let ev := create_log_event ts node (format_log_content content)
  { rs with log := rs.log ++ [ev], queue := rs.queue ++ [ev] }

/-- One `record_log` call performed by the running task: its timestamp,
node label and content. -/
structure Emission where
  ts : String
  node : String
  content : LogContent
deriving DecidableEq

/-- The check `rs.status in ("done", "timeout", "stopped", "error")`. -/
def statusDone : RunStatus → Bool
  | .done => true
  | .timeout => true
  | .stopped => true
  | .error => true
  | .running => false

/-- Python index normalisation for slice bounds: a negative index counts
from the end of the sequence, and the result is clamped to `[0, n]`. -/
def pyIndex (n : Nat) (i : Int) : Nat :=
  if i < 0 then (max (i + n) 0).toNat else min i.toNat n

/-- The Python slice `l[a:b]`. -/
def pySlice {α : Type} (l : List α) (a b : Int) : List α :=
  (l.take (pyIndex l.length b)).drop (pyIndex l.length a)

/-- The `RunLogsOut` pydantic model: `lines`, `next_cursor`, `done`. -/
structure RunLogsOut where
  lines : List LogEvent
  next_cursor : Int
  done : Bool
deriving DecidableEq, Repr

/-- The response computation `get_run_logs` performs both on the fast path
and at its final return (it is syntactically the same in both places):
`nxt = min(len(rs.log), cursor + max_items)`, `lines = rs.log[cursor:nxt]`,
`done = rs.status in ("done", "timeout", "stopped", "error")`. -/
def runLogsOut (rs : RunState) (cursor max_items : Int) : RunLogsOut :=
  let nxt := min (rs.log.length : Int) (cursor + max_items)
  { lines := pySlice rs.log cursor nxt, next_cursor := nxt,
    done := statusDone rs.status }

/-- The body of the wait path once `asyncio.wait_for(rs.queue.get(), ...)`
has returned the queue head `ev`:
`if not rs.log or rs.log[-1] != ev: rs.log.append(ev)`. -/
def wait_deliver (rs : RunState) : RunState :=
  match rs.queue with
  | [] => rs
  | ev :: rest =>
    if rs.log = [] ∨ rs.log.getLast? ≠ some ev then
      { rs with log := rs.log ++ [ev], queue := rest }
    else
      { rs with queue := rest }

/-- The handler `get_run_logs` on a record that was found in `RUNS`.  `emitted` lists
the `record_log` calls the running task performs while the handler is
suspended in `asyncio.wait_for`; the `except asyncio.TimeoutError: pass`
branch is taken exactly when the queue stays empty.  Returns the record as
the handler leaves it together with the response. -/
def get_run_logs (rs : RunState) (cursor max_items wait_ms : Int)
    (emitted : List Emission) : RunState × RunLogsOut :=
  if cursor < (rs.log.length : Int) then
    (rs, runLogsOut rs cursor max_items)
  else if wait_ms > 0 ∧ rs.status = .running then
    let rs1 := emitted.foldl (fun a e => record_log a e.ts e.node e.content) rs
    let rs2 := if rs1.queue = [] then rs1 else wait_deliver rs1
    (rs2, runLogsOut rs2 cursor max_items)
  else
    (rs, runLogsOut rs cursor max_items)

/-- Endpoint `GET /api/runs/{session_id}/logs`: 404 when `RUNS.get(session_id)` is
`None`, else the handler.  The error value is the HTTP status code. -/
def get_run_logs_endpoint (find : Option RunState)
    (cursor max_items wait_ms : Int) (emitted : List Emission) :
    Except Nat (RunState × RunLogsOut) :=
  match find with
  | none => .error 404
  | some rs => .ok (get_run_logs rs cursor max_items wait_ms emitted)

/-- Endpoint `POST /api/runs/{session_id}/stop`: 404 when the record is missing or
`rs.task` is `None`; otherwise `rs.task.cancel()` (a cancellation request
on the stored handle) and the body `{"ok": True}`. -/
def stop_run (find : Option RunState) : Except Nat (RunState × Bool) :=
  match find with
  | none => .error 404
  | some rs =>
    match rs.task with
    | none => .error 404
    | some t =>
      .ok ({ rs with task := some { t with cancelRequested := true } }, true)

/-- The `RunInfo` pydantic model returned by the run list/status
endpoints. -/
structure RunInfo where
  session_id : String
  agent_id : String
  status : RunStatus
  start_ts : String
  end_ts : Option String
  log_len : Nat
deriving DecidableEq, Repr

/-- The read-only snapshot both `GET /api/runs` and
`GET /api/runs/{session_id}` build from a record. -/
def runInfoOf (rs : RunState) : RunInfo :=
  { session_id := rs.session_id, agent_id := rs.agent_id,
    status := rs.status, start_ts := rs.start_ts, end_ts := rs.end_ts,
    log_len := rs.log.length }

/-- Endpoint `GET /api/runs/{session_id}`: snapshot or 404; never mutates the
record. -/
def get_run_status (find : Option RunState) : Except Nat RunInfo :=
  match find with
  | none => .error 404
  | some rs => .ok (runInfoOf rs)

/-- Endpoint `GET /api/runs`: the snapshot of every registered record; never
mutates any record. -/
def list_runs (runs : List RunState) : List RunInfo :=
  runs.map runInfoOf

/-- Modelled from the spec: the run-start / task-wrapper code of the Run
Execution Supervisor is not among the sources (no run-start endpoint
exists in `main.py`); §4.3 specifies that on an explicit cancellation
request while `status == running` the task is cancelled and the status set
to `stopped`, and §3 that `end_ts` is set exactly on leaving `running`,
with terminal states absorbing (§5: only the transition out of `running`
wins).  This is the cancellation handler of that missing wrapper, run when
the cancelled task unwinds. -/
def on_task_cancelled (ts : String) (rs : RunState) : RunState :=
  if rs.status = .running then
    { rs with status := .stopped, end_ts := some ts }
  else rs

/-- The invariant `end_ts is set iff status != "running"`. -/
def endTsInv (rs : RunState) : Prop :=
  rs.end_ts ≠ none ↔ rs.status ≠ RunStatus.running

instance (rs : RunState) : Decidable (endTsInv rs) := by
  unfold endTsInv; infer_instance

/-- The logs response for a record nobody is mutating, queried with
`wait_ms = 0` (the handler never suspends and leaves the record
unchanged). -/
def logsAt (rs : RunState) (cursor max_items : Int) : RunLogsOut :=
  (get_run_logs rs cursor max_items 0 []).2

/-- Claim C4's client loop taken literally: call `logs`, stop as soon as
the response reports `done = true`, otherwise continue from
`next_cursor`.  `fuel` bounds the number of calls. -/
def drainUntilDone (rs : RunState) (N : Int) : Int → Nat → List LogEvent
  | _, 0 => []
  | c, fuel + 1 =>
    let resp := logsAt rs c N
    if resp.done then resp.lines
    else resp.lines ++ drainUntilDone rs N resp.next_cursor fuel

/-- The amended client loop: stop only at a response that reports
`done = true` and carries an empty `lines` slice. -/
def drainUntilDrained (rs : RunState) (N : Int) : Int → Nat → List LogEvent
  | _, 0 => []
  | c, fuel + 1 =>
    let resp := logsAt rs c N
    if resp.done = true ∧ resp.lines = [] then []
    else resp.lines ++ drainUntilDrained rs N resp.next_cursor fuel

/-! Concrete fixtures used by witnesses and counterexamples. -/

/-- A first concrete log event. -/
def evX : LogEvent := { ts := "t1", node := "planner", text := ['x'] }

/-- A second concrete log event, distinct from `evX`. -/
def evY : LogEvent := { ts := "t2", node := "actor", text := ['y'] }

/-- The two back-to-back `record_log` calls of the C2 failing input. -/
def emsC2 : List Emission :=
  [{ ts := "t1", node := "planner", content := .ofString ['x'] },
   { ts := "t2", node := "actor", content := .ofString ['y'] }]

/-- A freshly created running record (the C2 failing input's record, also
used as a running fixture elsewhere). -/
def rsFresh : RunState := mkRunState "s1" "demo-plan" "t0"

/-- A running record holding one log event. -/
def rsOne : RunState := { rsFresh with log := [evX] }

/-- A record in the terminal status `done` with two log events and a task
handle that has not been asked to cancel. -/
def rsDoneTwo : RunState :=
  { rsFresh with
    status := .done, end_ts := some "t3", log := [evX, evY],
    task := some { cancelRequested := false } }

/-- A running record with an active task handle. -/
def rsRunningTask : RunState :=
  { rsFresh with task := some { cancelRequested := false } }

/-! Helper lemmas. -/

theorem statusDone_iff (s : RunStatus) :
    statusDone s = true ↔ s ≠ RunStatus.running := by
  cases s <;> simp [statusDone]

theorem not_mem_take {α : Type} (a : α) (n : Nat) (l : List α)
    (h : a ∉ l) : a ∉ l.take n :=
  fun hm => h (List.take_subset n l hm)

theorem newline_not_mem_collapse (s : List Char) :
    '\n' ∉ collapseNewlines s := by
  unfold collapseNewlines
  intro h
  obtain ⟨c, _, he⟩ := List.mem_map.mp h
  by_cases h' : c = '\n'
  · rw [if_pos h'] at he
    exact absurd he (by decide)
  · rw [if_neg h'] at he
    exact h' he

theorem pySlice_all_past (l : List LogEvent) (a b : Int)
    (h : (l.length : Int) ≤ a) : pySlice l a b = [] := by
  have h0 : (0 : Int) ≤ a := le_trans (Int.natCast_nonneg _) h
  have hlen : l.length ≤ a.toNat := by omega
  unfold pySlice pyIndex
  rw [if_neg (not_lt.mpr h0)]
  apply List.drop_eq_nil_of_le
  have := List.length_take (min a.toNat l.length) l
  simp [List.length_take]
  omega

/-! C6 — the emit path formats, truncates and appends -/

/-- C6: `record_log` stores one `LogEvent` whose text is
`format_log_content content` (list content rendered part by part with each
dict part's `"text"` field when present); the stored text is at most 200
characters and contains no newline, and for the concrete content
`"A" * 300` it is exactly 200 characters of `'A'`. -/
theorem c6_record_log_formats (rs : RunState) (ts node : String)
    (content : LogContent) :
    (record_log rs ts node content).log
        = rs.log ++ [create_log_event ts node (format_log_content content)]
      ∧ (format_log_content content).length ≤ 200
      ∧ '\n' ∉ format_log_content content
      ∧ format_log_content (.ofString (List.replicate 300 'A'))
          = List.replicate 200 'A' := by
  refine ⟨rfl, ?_, ?_, ?_⟩
  · cases content <;> simp [format_log_content, List.length_take]
  · cases content <;>
      exact not_mem_take _ _ _ (newline_not_mem_collapse _)
  · simp only [format_log_content, collapseNewlines]
    rw [List.map_replicate, if_neg (show ¬('A' = '\n') by decide),
      List.take_replicate]
    norm_num

/-! C8 — stop: 404 exactly on missing record or missing task -/

/-- C8: `stop_run` returns 404 iff the record is missing or has no task
handle; otherwise it returns `{ok: true}`, and in particular on a record
with a task handle the returned record keeps its status (so a stop on a
terminal record is a success no-op). -/
theorem c8_stop_404_iff (find : Option RunState) :
    (stop_run find = .error 404
        ↔ find = none ∨ ∃ rs, find = some rs ∧ rs.task = none)
      ∧ ∀ rs t, find = some rs → rs.task = some t →
          stop_run find
              = .ok ({ rs with task := some { t with cancelRequested := true } },
                     true)
            ∧ ({ rs with task := some { t with cancelRequested := true } }
                  : RunState).status = rs.status := by
  cases find with
  | none => simp [stop_run]
  | some rs =>
    cases h : rs.task with
    | none =>
      constructor
      · simp [stop_run, h]
      · intro rs' t hs ht
        rw [Option.some_inj] at hs
        subst hs
        rw [h] at ht
        exact absurd ht (by simp)
    | some t =>
      constructor
      · simp [stop_run, h]
      · intro rs' t' hs ht
        rw [Option.some_inj] at hs
        subst hs
        rw [h, Option.some_inj] at ht
        subst ht
        exact ⟨by simp [stop_run, h], rfl⟩

/-- Witness for C8: stopping the concrete terminal record `rsDoneTwo` is a
success no-op that keeps the terminal status. -/
theorem c8_stop_404_iff_witness :
    stop_run (some rsDoneTwo)
        = .ok ({ rsDoneTwo with task := some { cancelRequested := true } },
               true)
      ∧ ({ rsDoneTwo with task := some { cancelRequested := true } }
            : RunState).status = rsDoneTwo.status :=
  (c8_stop_404_iff (some rsDoneTwo)).2 rsDoneTwo { cancelRequested := false }
    rfl (by decide)

/-! C10 — stop is a pure cancellation request -/

/-- C10: on an existing record with a task handle, `stop_run` leaves every
record field unchanged — status, `end_ts`, `start_ts`, `log`, `queue` (and
the identifiers) — and only marks the task handle as
cancellation-requested. -/
theorem c10_stop_frame (rs : RunState) (t : TaskHandle)
    (h : rs.task = some t) :
    ∃ rs', stop_run (some rs) = .ok (rs', true)
      ∧ rs'.status = rs.status ∧ rs'.end_ts = rs.end_ts
      ∧ rs'.start_ts = rs.start_ts ∧ rs'.log = rs.log
      ∧ rs'.queue = rs.queue ∧ rs'.session_id = rs.session_id
      ∧ rs'.agent_id = rs.agent_id
      ∧ rs'.task = some { t with cancelRequested := true } := by
  exact ⟨{ rs with task := some { t with cancelRequested := true } },
    by simp [stop_run, h], rfl, rfl, rfl, rfl, rfl, rfl, rfl, rfl⟩

/-- Witness for C10 at the concrete running record `rsRunningTask`. -/
theorem c10_stop_frame_witness :
    ∃ rs', stop_run (some rsRunningTask) = .ok (rs', true)
      ∧ rs'.status = rsRunningTask.status
      ∧ rs'.end_ts = rsRunningTask.end_ts
      ∧ rs'.start_ts = rsRunningTask.start_ts
      ∧ rs'.log = rsRunningTask.log
      ∧ rs'.queue = rsRunningTask.queue
      ∧ rs'.session_id = rsRunningTask.session_id
      ∧ rs'.agent_id = rsRunningTask.agent_id
      ∧ rs'.task = some { cancelRequested := true } :=
  c10_stop_frame rsRunningTask { cancelRequested := false } (by decide)

/-! C1 — stop cancels and (via the supervisor) stops the run -/

/-- C1: on a registered running record with its background task, the stop
endpoint requests cancellation of the task, and the supervisor's
cancellation handler (modelled from the spec, see `on_task_cancelled`)
then sets the status to `stopped`. -/
theorem c1_stop_cancels_and_stops (rs : RunState) (t : TaskHandle)
    (ts : String) (h1 : rs.task = some t) (h2 : rs.status = .running) :
    ∃ rs', stop_run (some rs) = .ok (rs', true)
      ∧ rs'.task = some { t with cancelRequested := true }
      ∧ (on_task_cancelled ts rs').status = .stopped := by
  refine ⟨{ rs with task := some { t with cancelRequested := true } },
    by simp [stop_run, h1], rfl, ?_⟩
  simp [on_task_cancelled, h2]

/-- Witness for C1 at the concrete running record `rsRunningTask`. -/
theorem c1_stop_cancels_and_stops_witness :
    ∃ rs', stop_run (some rsRunningTask) = .ok (rs', true)
      ∧ rs'.task = some { cancelRequested := true }
      ∧ (on_task_cancelled "t9" rs').status = .stopped :=
  c1_stop_cancels_and_stops rsRunningTask { cancelRequested := false } "t9"
    (by decide) (by decide)

/-! C5 — next_cursor never exceeds the log length -/

/-- C5: on every path of the logs handler — fast path, wait path with or
without a delivery, and the no-wait fallback — the response's
`next_cursor` is at most the length of the record's log at response time
(the log of the state the handler leaves behind). -/
theorem c5_next_cursor_le (rs : RunState) (cursor max_items wait_ms : Int)
    (emitted : List Emission) :
    (get_run_logs rs cursor max_items wait_ms emitted).2.next_cursor
      ≤ ((get_run_logs rs cursor max_items wait_ms emitted).1.log.length
          : Int) := by
  unfold get_run_logs
  split
  · exact min_le_left _ _
  · split
    · exact min_le_left _ _
    · exact min_le_left _ _

/-! C7 — long-poll timeout is an empty success, not an error -/

/-- C7: when the wait path is entered (no events at or past the cursor,
running status, positive `wait_ms`) and nothing is delivered (empty queue,
no emission during the wait), the endpoint returns a normal `200` response
with an empty `lines` slice and `done = false`, leaving the record
unchanged. -/
theorem c7_wait_timeout_empty (rs : RunState)
    (cursor max_items wait_ms : Int)
    (h1 : (rs.log.length : Int) ≤ cursor) (h2 : rs.status = .running)
    (h3 : 0 < wait_ms) (h4 : rs.queue = []) :
    ∃ r, get_run_logs_endpoint (some rs) cursor max_items wait_ms []
          = .ok (rs, r)
      ∧ r.lines = [] ∧ r.done = false := by
  have hg : get_run_logs rs cursor max_items wait_ms []
      = (rs, runLogsOut rs cursor max_items) := by
    unfold get_run_logs
    rw [if_neg (not_lt.mpr h1), if_pos ⟨h3, h2⟩]
    simp [h4]
  refine ⟨runLogsOut rs cursor max_items, ?_, ?_, ?_⟩
  · simp [get_run_logs_endpoint, hg]
  · exact pySlice_all_past rs.log cursor _ h1
  · unfold runLogsOut
    rw [h2]
    rfl

/-- Witness for C7: long-polling the fresh empty running record times out
into an empty, non-error, not-done response. -/
theorem c7_wait_timeout_empty_witness :
    ∃ r, get_run_logs_endpoint (some rsFresh) 0 50 1000 [] = .ok (rsFresh, r)
      ∧ r.lines = [] ∧ r.done = false :=
  c7_wait_timeout_empty rsFresh 0 50 1000 (by decide) (by decide) (by decide)
    (by decide)

/-! C9 — `end_ts` is set iff the status left `running` -/

theorem record_log_status_end (rs : RunState) (ts node : String)
    (content : LogContent) :
    (record_log rs ts node content).status = rs.status
      ∧ (record_log rs ts node content).end_ts = rs.end_ts :=
  ⟨rfl, rfl⟩

theorem wait_deliver_status_end (rs : RunState) :
    (wait_deliver rs).status = rs.status
      ∧ (wait_deliver rs).end_ts = rs.end_ts := by
  unfold wait_deliver
  split
  · exact ⟨rfl, rfl⟩
  · split
    · exact ⟨rfl, rfl⟩
    · exact ⟨rfl, rfl⟩

theorem foldl_record_log_status_end (em : List Emission) :
    ∀ rs : RunState,
      ((em.foldl (fun a e => record_log a e.ts e.node e.content) rs).status
          = rs.status)
        ∧ ((em.foldl (fun a e => record_log a e.ts e.node e.content) rs).end_ts
          = rs.end_ts) := by
  induction em with
  | nil => exact fun rs => ⟨rfl, rfl⟩
  | cons e tl ih =>
    intro rs
    exact ⟨(ih (record_log rs e.ts e.node e.content)).1,
           (ih (record_log rs e.ts e.node e.content)).2⟩

theorem get_run_logs_status_end (rs : RunState)
    (cursor max_items wait_ms : Int) (emitted : List Emission) :
    ((get_run_logs rs cursor max_items wait_ms emitted).1.status = rs.status)
      ∧ ((get_run_logs rs cursor max_items wait_ms emitted).1.end_ts
          = rs.end_ts) := by
  unfold get_run_logs
  split
  · exact ⟨rfl, rfl⟩
  · split
    · constructor
      · show (if _ then _ else wait_deliver _).status = rs.status
        split
        · exact (foldl_record_log_status_end emitted rs).1
        · rw [(wait_deliver_status_end _).1]
          exact (foldl_record_log_status_end emitted rs).1
      · show (if _ then _ else wait_deliver _).end_ts = rs.end_ts
        split
        · exact (foldl_record_log_status_end emitted rs).2
        · rw [(wait_deliver_status_end _).2]
          exact (foldl_record_log_status_end emitted rs).2
    · exact ⟨rfl, rfl⟩

/-- C9: the invariant "`end_ts` is set iff `status != running`" holds in
the state produced by run-record creation (the dataclass defaults) and is
preserved by `record_log`, by the logs handler on every path (the
list/status queries are read-only snapshots, see `get_run_status` and
`list_runs`), and by a successful stop. -/
theorem c9_end_ts_inv (sid aid ts0 : String) :
    endTsInv (mkRunState sid aid ts0)
      ∧ (∀ rs ts node content, endTsInv rs
          → endTsInv (record_log rs ts node content))
      ∧ (∀ rs cursor max_items wait_ms emitted, endTsInv rs
          → endTsInv ((get_run_logs rs cursor max_items wait_ms emitted).1))
      ∧ (∀ rs rs' ok, stop_run (some rs) = .ok (rs', ok) → endTsInv rs
          → endTsInv rs') := by
  refine ⟨?_, ?_, ?_, ?_⟩
  · simp [endTsInv, mkRunState]
  · intro rs ts node content h
    unfold endTsInv at h ⊢
    rw [(record_log_status_end rs ts node content).1,
      (record_log_status_end rs ts node content).2]
    exact h
  · intro rs cursor max_items wait_ms emitted h
    unfold endTsInv at h ⊢
    rw [(get_run_logs_status_end rs cursor max_items wait_ms emitted).1,
      (get_run_logs_status_end rs cursor max_items wait_ms emitted).2]
    exact h
  · intro rs rs' ok hok h
    cases hT : rs.task with
    | none => simp [stop_run, hT] at hok
    | some t =>
      simp [stop_run, hT] at hok
      rw [← hok.1]
      exact h

/-- Witness for C9: the invariant holds on the fresh record and survives a
concrete long-poll query on `rsOne`. -/
theorem c9_end_ts_inv_witness :
    endTsInv ((get_run_logs rsOne 0 50 0 []).1) :=
  (c9_end_ts_inv "s1" "demo-plan" "t0").2.2.1 rsOne 0 50 0 [] (by decide)

/-! C3 — fast path characterisation -/

theorem pySlice_nonneg_eq (l : List LogEvent) (a b : Int) (ha : 0 ≤ a)
    (hb : 0 ≤ b) : pySlice l a b = (l.take b.toNat).drop a.toNat := by
  unfold pySlice pyIndex
  rw [if_neg (not_lt.mpr hb), if_neg (not_lt.mpr ha)]
  have htake : l.take (min b.toNat l.length) = l.take b.toNat := by
    rw [← List.take_take, List.take_length]
  rw [htake]
  rcases le_or_lt a.toNat l.length with h' | h'
  · rw [Nat.min_eq_left h']
  · have hx : (l.take b.toNat).length ≤ l.length := by
      rw [List.length_take]
      exact min_le_right _ _
    rw [Nat.min_eq_right h'.le, List.drop_eq_nil_of_le hx,
      List.drop_eq_nil_of_le (le_trans hx h'.le)]

/-- C3 amended: on an existing run with `0 ≤ cursor < len(log)` and
`0 ≤ max_items`, the handler takes the fast path — the record is left
unchanged and the answer ignores `wait_ms` and any concurrent emissions —
returning `lines = log[cursor : min(len(log), cursor + max_items)]`,
`next_cursor = cursor + len(lines)`, and `done = true` exactly when the
status is terminal. -/
theorem c3_fast_path (rs : RunState) (cursor max_items wait_ms : Int)
    (emitted : List Emission) (h0 : 0 ≤ cursor)
    (h1 : cursor < (rs.log.length : Int)) (h2 : 0 ≤ max_items) :
    ∃ out, get_run_logs rs cursor max_items wait_ms emitted = (rs, out)
      ∧ out.lines
          = pySlice rs.log cursor
              (min (rs.log.length : Int) (cursor + max_items))
      ∧ out.next_cursor = cursor + (out.lines.length : Int)
      ∧ (out.done = true ↔ rs.status ≠ RunStatus.running) := by
  have hfast : get_run_logs rs cursor max_items wait_ms emitted
      = (rs, runLogsOut rs cursor max_items) := by
    unfold get_run_logs
    rw [if_pos h1]
  have hnn : 0 ≤ min (rs.log.length : Int) (cursor + max_items) :=
    le_min (Int.natCast_nonneg _) (by omega)
  have hlines : (runLogsOut rs cursor max_items).lines
      = (rs.log.take
            (min (rs.log.length : Int) (cursor + max_items)).toNat).drop
          cursor.toNat :=
    pySlice_nonneg_eq _ _ _ h0 hnn
  refine ⟨runLogsOut rs cursor max_items, hfast, rfl, ?_, statusDone_iff _⟩
  show min (rs.log.length : Int) (cursor + max_items)
      = cursor + ((runLogsOut rs cursor max_items).lines.length : Int)
  rw [hlines]
  simp only [List.length_drop, List.length_take]
  omega

/-- Counterexample for C3 as stated: with `max_items = -1` on a one-event
log the fast path returns zero lines but `next_cursor = -1`, which is not
`cursor + (number of returned lines) = 0`. -/
theorem c3_counterexample :
    (get_run_logs rsOne 0 (-1) 0 []).2.lines = []
      ∧ (get_run_logs rsOne 0 (-1) 0 []).2.next_cursor = -1
      ∧ (get_run_logs rsOne 0 (-1) 0 []).2.next_cursor
          ≠ 0 + (((get_run_logs rsOne 0 (-1) 0 []).2.lines.length : Nat)
              : Int) := by
  decide

/-- Witness for C3's amended theorem at `rsOne`, `cursor = 0`,
`max_items = 50`, `wait_ms = 7`. -/
theorem c3_fast_path_witness :
    ∃ out, get_run_logs rsOne 0 50 7 [] = (rsOne, out)
      ∧ out.lines
          = pySlice rsOne.log 0 (min (rsOne.log.length : Int) (0 + 50))
      ∧ out.next_cursor = 0 + (out.lines.length : Int)
      ∧ (out.done = true ↔ rsOne.status ≠ RunStatus.running) :=
  c3_fast_path rsOne 0 50 7 [] (by decide) (by decide) (by decide)

/-! C2 — the wait path can duplicate an already-logged event -/

/-- C2 fails on the code: starting from the fresh record, the task emits
`evX` then `evY` (each via `record_log`, exactly once) while a long-poll
is blocked in `asyncio.wait_for`; the woken wait path receives the queue
head `evX`, whose copy is no longer the *last* log entry, so the
defensive check `rs.log[-1] != ev` passes and `evX` is appended a second
time: the log ends as `[evX, evY, evX]` with `evX` counted twice, though
the emit path produced it once. -/
theorem c2_wait_path_duplicate :
    (emsC2.foldl (fun a e => record_log a e.ts e.node e.content)
        rsFresh).log = [evX, evY]
      ∧ List.count evX
          (emsC2.foldl (fun a e => record_log a e.ts e.node e.content)
              rsFresh).log = 1
      ∧ (get_run_logs rsFresh 0 50 1000 emsC2).1.log = [evX, evY, evX]
      ∧ List.count evX ((get_run_logs rsFresh 0 50 1000 emsC2).1.log)
          = 2 := by
  decide

/-! C4 — cursor pagination tiles the log -/

theorem runLogsOut_lines (rs : RunState) (c m : Int) :
    (runLogsOut rs c m).lines
      = pySlice rs.log c (min (rs.log.length : Int) (c + m)) := rfl

theorem runLogsOut_next (rs : RunState) (c m : Int) :
    (runLogsOut rs c m).next_cursor
      = min (rs.log.length : Int) (c + m) := rfl

theorem runLogsOut_done_eq (rs : RunState) (c m : Int) :
    (runLogsOut rs c m).done = statusDone rs.status := rfl

theorem logsAt_eq (rs : RunState) (c m : Int) :
    logsAt rs c m = runLogsOut rs c m := by
  unfold logsAt get_run_logs
  split
  · rfl
  · split
    · next h => exact absurd h.1 (by decide)
    · rfl

theorem drop_take_chain (l : List LogEvent) (c m : Nat) (h : c ≤ m) :
    (l.take m).drop c ++ l.drop m = l.drop c := by
  rw [List.drop_take]
  have hdd : l.drop m = (l.drop c).drop (m - c) := by
    rw [List.drop_drop]
    congr 1
    omega
  rw [hdd, List.take_append_drop]

theorem drain_aux (rs : RunState) (N : Int)
    (h1 : statusDone rs.status = true) (h2 : 1 ≤ N) :
    ∀ fuel (c : Nat), c ≤ rs.log.length → rs.log.length - c < fuel →
      drainUntilDrained rs N (c : Int) fuel = rs.log.drop c := by
  intro fuel
  induction fuel with
  | zero =>
    intro c _ hf
    omega
  | succ f ih =>
    intro c hc hf
    have hN : (0 : Int) ≤ N := by omega
    have hm : min (rs.log.length : Int) ((c : Int) + N)
        = ((min rs.log.length (c + N.toNat) : Nat) : Int) := by
      push_cast
      omega
    have hlines : (runLogsOut rs (c : Int) N).lines
        = (rs.log.take (min rs.log.length (c + N.toNat))).drop c := by
      have := pySlice_nonneg_eq rs.log (c : Int)
        (min (rs.log.length : Int) ((c : Int) + N)) (Int.natCast_nonneg _)
        (le_min (Int.natCast_nonneg _) (by omega))
      rw [runLogsOut_lines, this, hm, Int.toNat_natCast, Int.toNat_natCast]
    simp only [drainUntilDrained, logsAt_eq]
    rcases eq_or_lt_of_le hc with hceq | hclt
    · have hmval : min rs.log.length (c + N.toNat) = rs.log.length :=
        Nat.min_eq_left (by omega)
      have hempty : (runLogsOut rs (c : Int) N).lines = [] := by
        rw [hlines, hmval, List.take_length, hceq, List.drop_length]
      rw [if_pos ⟨by rw [runLogsOut_done_eq, h1], hempty⟩, hceq,
        List.drop_length]
    · have hmlow : c + 1 ≤ min rs.log.length (c + N.toNat) := by
        have : 1 ≤ N.toNat := by omega
        omega
      have hlen : (runLogsOut rs (c : Int) N).lines.length
          = min rs.log.length (c + N.toNat) - c := by
        rw [hlines]
        rw [List.length_drop, List.length_take]
        omega
      have hne : (runLogsOut rs (c : Int) N).lines ≠ [] := by
        intro he
        rw [he] at hlen
        simp at hlen
        omega
      rw [if_neg (fun hand => hne hand.2)]
      have hnext : (runLogsOut rs (c : Int) N).next_cursor
          = ((min rs.log.length (c + N.toNat) : Nat) : Int) := by
        rw [runLogsOut_next]
        exact hm
      rw [hnext, ih (min rs.log.length (c + N.toNat)) (by omega) (by omega),
        hlines]
      exact drop_take_chain rs.log c _ (by omega)

/-- C4 amended: for a record in a terminal status, iterating `logs` from
`cursor = 0` with any page size `N ≥ 1`, passing back `next_cursor` each
time, until a response with `done = true` *and an empty `lines` slice*,
concatenates to exactly the full log — no duplicates, no gaps.  (Stopping
at the first `done = true` response, as the claim literally says, is
premature: see the counterexample.) -/
theorem c4_pagination (rs : RunState) (N : Int)
    (h1 : statusDone rs.status = true) (h2 : 1 ≤ N) :
    drainUntilDrained rs N 0 (rs.log.length + 1) = rs.log := by
  have := drain_aux rs N h1 h2 (rs.log.length + 1) 0 (by omega) (by omega)
  simpa using this

/-- Counterexample for C4 as stated: on the terminal record `rsDoneTwo`
(`log = [evX, evY]`) with `N = 1`, every response has `done = true`, so
the loop that stops at the first `done = true` response ends after one
call having collected only `[evX]`, not the full log. -/
theorem c4_counterexample :
    drainUntilDone rsDoneTwo 1 0 (rsDoneTwo.log.length + 1) = [evX]
      ∧ rsDoneTwo.log = [evX, evY]
      ∧ drainUntilDone rsDoneTwo 1 0 (rsDoneTwo.log.length + 1)
          ≠ rsDoneTwo.log := by
  decide

/-- Witness for C4's amended theorem on the concrete terminal record
`rsDoneTwo` with page size 1. -/
theorem c4_pagination_witness :
    drainUntilDrained rsDoneTwo 1 0 (rsDoneTwo.log.length + 1)
      = rsDoneTwo.log :=
  c4_pagination rsDoneTwo 1 (by decide) (by decide)

end AgentMcp
